import Mathlib

/-!
# Verification of the IA Management System aggregation endpoints

Shallow embedding of the two analytics route handlers of the repository:

* the HOD overview endpoint (grade-band histogram and rule-based alerts),
  from `routes` source `part_000` (`router.get('/overview')`), and
* the department statistics endpoint, from
  `src/backend-nodejs/src/routes/analytics.js`
  (`router.get('/department/:dept/stats')`),
* the faculty-creation endpoint (`router.post('/faculty')`).

Modelling conventions:

* JavaScript numbers are modelled as `ℚ` (the handlers only add, divide and
  compare; every concrete value exercised here is exact in binary doubles, so
  the rational model agrees with the JS evaluation on them).
* Optional record fields (`m.marks`, `m.maxMarks`, `m.subject`, `m.student`)
  are `Option`s; the JS falsiness defaults `x || d` become explicit matches
  (note `0 || d = d` and `'' || d = d`).
* `Number.prototype.toFixed(1)` rounds to the nearest tenth, ties toward the
  larger value (ECMA: "pick the larger n"); we model the composition
  `parseFloat(x.toFixed(1))` as `jsToFixed1 : ℚ → ℚ`.
* A JS object used as a dictionary with string keys enumerates its properties
  in insertion order; `groupPairs` is that insertion-ordered grouping.
  Student identifiers are modelled as `String`.
* Alert messages are template strings; we model them as a structured datatype
  carrying exactly the interpolated data (names, counts, and the
  `toFixed(1)`-rounded average).  Alert dates (wall clock) carry no
  information about the data and are omitted.
* The database loads (`findAll`, `count`) and the bcrypt hash are external
  collaborators; handlers take them as function parameters.
-/

/-- Model of `x.toFixed(1)` followed by `parseFloat`: round to the nearest tenth,
ties toward the larger value. -/
def jsToFixed1 (q : ℚ) : ℚ := (⌊10 * q + 1/2⌋ : ℚ) / 10

/-- Joined subject metadata (only the name is read by the handlers). -/
structure Subject where
  name : String
deriving DecidableEq, Repr

/-- Joined student metadata (only the name is read by the handlers). -/
structure Student where
  name : String
deriving DecidableEq, Repr

/-- One CIE mark record as the handlers see it after the ORM join. -/
structure CIEMark where
  studentId : String
  marks : Option ℚ
  maxMarks : Option ℚ
  status : String
  subject : Option Subject
  student : Option Student
deriving DecidableEq, Repr

/-- Defaulting `m.marks || 0` (absent and 0 both yield 0). -/
def jsOr0 (o : Option ℚ) : ℚ :=
  match o with
  | none => 0
  | some v => if v = 0 then 0 else v

/-- Defaulting `m.maxMarks || 50` (absent and 0 both yield 50). -/
def jsOr50 (o : Option ℚ) : ℚ :=
  match o with
  | none => 50
  | some v => if v = 0 then 50 else v

/-- Percentage `(score / maxMarks) * 100` for one record. -/
def percentOf (m : CIEMark) : ℚ :=
  jsOr0 m.marks / jsOr50 m.maxMarks * 100

/-- The five grade-band counters of the overview handler. -/
structure GradeDist where
  gradeA : Nat
  gradeB : Nat
  gradeC : Nat
  gradeD : Nat
  gradeF : Nat
deriving DecidableEq, Repr

/-- The `if / else if` chain classifying one record's percentage. -/
inductive Band | A | B | C | D | F
deriving DecidableEq, Repr

/-- Band of one record, mirroring the handler's `if (percent >= 80) ... else gradeF++`. -/
def bandOf (m : CIEMark) : Band :=
  let percent := percentOf m
  if 80 ≤ percent then .A
  else if 60 ≤ percent then .B
  else if 40 ≤ percent then .C
  else if 20 ≤ percent then .D
  else .F

/-- The `marks.forEach` loop accumulating the five counters.  The counters are
commutative increments, so we recurse structurally; the final counts agree
with the JS iteration order. -/
def gradeCounts : List CIEMark → GradeDist
  | [] => ⟨0, 0, 0, 0, 0⟩
  | m :: rest =>
    let g := gradeCounts rest
    match bandOf m with
    | .A => { g with gradeA := g.gradeA + 1 }
    | .B => { g with gradeB := g.gradeB + 1 }
    | .C => { g with gradeC := g.gradeC + 1 }
    | .D => { g with gradeD := g.gradeD + 1 }
    | .F => { g with gradeF := g.gradeF + 1 }

/-- Sum of the five counters. -/
def GradeDist.total (g : GradeDist) : Nat :=
  g.gradeA + g.gradeB + g.gradeC + g.gradeD + g.gradeF

/-- The five bands exactly as the claim words them: `A` iff `percent ≥ 80`,
half-open bands below, `F` for everything under 20 (negative included). -/
def bandCounts (ms : List CIEMark) : GradeDist :=
  ⟨ms.countP fun m => 80 ≤ percentOf m,
   ms.countP fun m => 60 ≤ percentOf m ∧ percentOf m < 80,
   ms.countP fun m => 40 ≤ percentOf m ∧ percentOf m < 60,
   ms.countP fun m => 20 ≤ percentOf m ∧ percentOf m < 40,
   ms.countP fun m => percentOf m < 20⟩

theorem bandOf_A_iff (m : CIEMark) : bandOf m = .A ↔ 80 ≤ percentOf m := by
  by_cases h80 : 80 ≤ percentOf m <;> by_cases h60 : 60 ≤ percentOf m <;>
    by_cases h40 : 40 ≤ percentOf m <;> by_cases h20 : 20 ≤ percentOf m <;>
    simp [bandOf, h80, h60, h40, h20, not_le]

theorem bandOf_B_iff (m : CIEMark) :
    bandOf m = .B ↔ 60 ≤ percentOf m ∧ percentOf m < 80 := by
  by_cases h80 : 80 ≤ percentOf m <;> by_cases h60 : 60 ≤ percentOf m <;>
    by_cases h40 : 40 ≤ percentOf m <;> by_cases h20 : 20 ≤ percentOf m <;>
    simp [bandOf, h80, h60, h40, h20, not_le] <;> linarith

theorem bandOf_C_iff (m : CIEMark) :
    bandOf m = .C ↔ 40 ≤ percentOf m ∧ percentOf m < 60 := by
  by_cases h80 : 80 ≤ percentOf m <;> by_cases h60 : 60 ≤ percentOf m <;>
    by_cases h40 : 40 ≤ percentOf m <;> by_cases h20 : 20 ≤ percentOf m <;>
    simp [bandOf, h80, h60, h40, h20, not_le] <;> linarith

theorem bandOf_D_iff (m : CIEMark) :
    bandOf m = .D ↔ 20 ≤ percentOf m ∧ percentOf m < 40 := by
  by_cases h80 : 80 ≤ percentOf m <;> by_cases h60 : 60 ≤ percentOf m <;>
    by_cases h40 : 40 ≤ percentOf m <;> by_cases h20 : 20 ≤ percentOf m <;>
    simp [bandOf, h80, h60, h40, h20, not_le] <;> linarith

theorem bandOf_F_iff (m : CIEMark) : bandOf m = .F ↔ percentOf m < 20 := by
  by_cases h80 : 80 ≤ percentOf m <;> by_cases h60 : 60 ≤ percentOf m <;>
    by_cases h40 : 40 ≤ percentOf m <;> by_cases h20 : 20 ≤ percentOf m <;>
    simp [bandOf, h80, h60, h40, h20, not_le] <;> linarith

theorem gradeCounts_eq_bandCounts (ms : List CIEMark) :
    gradeCounts ms = bandCounts ms := by
  induction ms with
  | nil => rfl
  | cons m rest ih =>
    rcases hb : bandOf m with _ | _ | _ | _ | _
    · have hp : 80 ≤ percentOf m := (bandOf_A_iff m).mp hb
      have h1 : ¬(60 ≤ percentOf m ∧ percentOf m < 80) := fun h => by linarith [h.2]
      have h2 : ¬(40 ≤ percentOf m ∧ percentOf m < 60) := fun h => by linarith [h.2]
      have h3 : ¬(20 ≤ percentOf m ∧ percentOf m < 40) := fun h => by linarith [h.2]
      have h4 : ¬(percentOf m < 20) := by linarith
      simp [gradeCounts, bandCounts, List.countP_cons, hb, ih, hp, h1, h2, h3, h4]
    · have hp : 60 ≤ percentOf m ∧ percentOf m < 80 := (bandOf_B_iff m).mp hb
      have h1 : ¬(80 ≤ percentOf m) := by linarith [hp.2]
      have h2 : ¬(40 ≤ percentOf m ∧ percentOf m < 60) := fun h => by linarith [h.2, hp.1]
      have h3 : ¬(20 ≤ percentOf m ∧ percentOf m < 40) := fun h => by linarith [h.2, hp.1]
      have h4 : ¬(percentOf m < 20) := by linarith [hp.1]
      simp [gradeCounts, bandCounts, List.countP_cons, hb, ih, hp, h1, h2, h3, h4]
    · have hp : 40 ≤ percentOf m ∧ percentOf m < 60 := (bandOf_C_iff m).mp hb
      have h1 : ¬(80 ≤ percentOf m) := by linarith [hp.2]
      have h2 : ¬(60 ≤ percentOf m ∧ percentOf m < 80) := fun h => by linarith [h.1, hp.2]
      have h3 : ¬(20 ≤ percentOf m ∧ percentOf m < 40) := fun h => by linarith [h.2, hp.1]
      have h4 : ¬(percentOf m < 20) := by linarith [hp.1]
      simp [gradeCounts, bandCounts, List.countP_cons, hb, ih, hp, h1, h2, h3, h4]
    · have hp : 20 ≤ percentOf m ∧ percentOf m < 40 := (bandOf_D_iff m).mp hb
      have h1 : ¬(80 ≤ percentOf m) := by linarith [hp.2]
      have h2 : ¬(60 ≤ percentOf m ∧ percentOf m < 80) := fun h => by linarith [h.1, hp.2]
      have h3 : ¬(40 ≤ percentOf m ∧ percentOf m < 60) := fun h => by linarith [h.1, hp.2]
      have h4 : ¬(percentOf m < 20) := by linarith [hp.1]
      simp [gradeCounts, bandCounts, List.countP_cons, hb, ih, hp, h1, h2, h3, h4]
    · have hp : percentOf m < 20 := (bandOf_F_iff m).mp hb
      have h1 : ¬(80 ≤ percentOf m) := by linarith
      have h2 : ¬(60 ≤ percentOf m ∧ percentOf m < 80) := fun h => by linarith [h.1]
      have h3 : ¬(40 ≤ percentOf m ∧ percentOf m < 60) := fun h => by linarith [h.1]
      have h4 : ¬(20 ≤ percentOf m ∧ percentOf m < 40) := fun h => by linarith [h.1]
      simp [gradeCounts, bandCounts, List.countP_cons, hb, ih, hp, h1, h2, h3, h4]

theorem gradeCounts_total (ms : List CIEMark) :
    (gradeCounts ms).total = ms.length := by
  induction ms with
  | nil => rfl
  | cons m rest ih =>
    rcases hb : bandOf m with _ | _ | _ | _ | _ <;>
      simp [gradeCounts, hb, GradeDist.total] at * <;> omega

/-!
## Insertion-ordered grouping

A JS object used as a dictionary with string keys (`studentMarksMap`,
`subjectPerf`, `studentMarks`) enumerates its properties in insertion order.
`groupPairs` captures that: one group per distinct key, keys in order of
first appearance, and each group's values in list order.
-/

/-- Group a list of key/value pairs by key, keys in first-appearance order. -/
def groupPairs {α : Type} : List (String × α) → List (String × List α)
  | [] => []
  | (k, v) :: rest =>
    (k, v :: (rest.filter fun p => p.1 = k).map Prod.snd) ::
      groupPairs (rest.filter fun p => p.1 ≠ k)
termination_by l => l.length
decreasing_by
  simp only [List.length_cons]
  exact Nat.lt_succ_of_le (List.length_filter_le _ _)

/-- Distinct elements of a list, in first-appearance order. -/
def firstDedup : List String → List String
  | [] => []
  | k :: rest => k :: firstDedup (rest.filter fun x => x ≠ k)
termination_by l => l.length
decreasing_by
  simp only [List.length_cons]
  exact Nat.lt_succ_of_le (List.length_filter_le _ _)

theorem firstDedup_subset (l : List String) : ∀ x ∈ firstDedup l, x ∈ l := by
  induction l using firstDedup.induct with
  | case1 => intro x hx; simp [firstDedup] at hx
  | case2 k rest ih =>
    intro x hx
    rw [firstDedup] at hx
    rcases List.mem_cons.mp hx with h1 | h2
    · exact h1 ▸ List.mem_cons_self _ _
    · exact List.mem_cons_of_mem _ (List.mem_of_mem_filter (ih x h2))

/-- All values paired with a given key, in list order. -/
def valuesFor {α : Type} (k : String) (l : List (String × α)) : List α :=
  (l.filter fun p => p.1 = k).map Prod.snd

theorem filter_keys_comm {α : Type} (l : List (String × α)) (k : String) :
    (l.filter fun p => p.1 ≠ k).map Prod.fst = (l.map Prod.fst).filter (fun x => x ≠ k) := by
  induction l with
  | nil => rfl
  | cons p rest ih =>
    by_cases h : p.1 = k <;> simp [List.filter_cons, h] <;> simpa using ih

theorem valuesFor_cons {α : Type} (k : String) (p : String × α) (l : List (String × α)) :
    valuesFor k (p :: l) = if p.1 = k then p.2 :: valuesFor k l else valuesFor k l := by
  by_cases h : p.1 = k <;> simp [valuesFor, List.filter_cons, h]

theorem valuesFor_filter_ne {α : Type} (l : List (String × α)) (k k' : String)
    (hne : k' ≠ k) :
    valuesFor k' (l.filter fun p => p.1 ≠ k) = valuesFor k' l := by
  induction l with
  | nil => rfl
  | cons p rest ih =>
    rw [List.filter_cons]
    by_cases h : p.1 = k
    · have hd : decide (p.1 ≠ k) = false := by simp [h]
      rw [hd, if_neg Bool.false_ne_true, ih, valuesFor_cons]
      have h' : ¬ p.1 = k' := fun hc => hne (hc.symm.trans h)
      rw [if_neg h']
    · have hd : decide (p.1 ≠ k) = true := by simp [h]
      rw [hd, if_pos rfl, valuesFor_cons, valuesFor_cons, ih]

/-- Prepending a pair with a different key leaves `valuesFor` unchanged. -/
theorem valuesFor_cons_ne {α : Type} (l : List (String × α)) (k k' : String)
    (v : α) (hne : k' ≠ k) : valuesFor k' ((k, v) :: l) = valuesFor k' l := by
  have h : ¬ ((k, v).1 = k') := fun hc => hne hc.symm
  simp [valuesFor_cons, h]

/-- Characterization of `groupPairs` the spec's way: the group keys are the
distinct keys in first-appearance order, and each key's group collects
exactly the values attached to that key, in list order. -/
theorem groupPairs_eq {α : Type} (l : List (String × α)) :
    groupPairs l = (firstDedup (l.map Prod.fst)).map fun k => (k, valuesFor k l) := by
  induction l using groupPairs.induct with
  | case1 => simp [groupPairs, firstDedup]
  | case2 k v rest ih =>
    have hkeys : ((rest.filter fun p => p.1 ≠ k).map Prod.fst)
        = (rest.map Prod.fst).filter (fun x => x ≠ k) := filter_keys_comm rest k
    have hv : valuesFor k ((k, v) :: rest) = v :: valuesFor k rest := by
      simp [valuesFor, List.filter_cons]
    simp only [groupPairs, List.map_cons, firstDedup, hv]
    refine List.cons_eq_cons.mpr ⟨by simp [valuesFor], ?_⟩
    rw [ih, hkeys]
    apply List.map_congr_left
    intro k' hk'
    have hk'ne : k' ≠ k := by
      have := List.mem_filter.mp (firstDedup_subset _ _ hk')
      exact of_decide_eq_true this.2
    rw [valuesFor_filter_ne rest k k' hk'ne, valuesFor_cons_ne rest k k' v hk'ne]

/-!
## Department statistics endpoint

Embedding of `router.get('/department/:dept/stats')` from
`src/backend-nodejs/src/routes/analytics.js`.  The handler receives the
department's mark records (the ORM join is an external collaborator) and
computes per-student statistics.
-/

/-- The JSON body of the stats response. -/
structure DeptStats where
  average : ℚ
  passPercentage : ℚ
  atRiskCount : Nat
  totalStudents : Nat
deriving DecidableEq, Repr

/-- The `studentIds.forEach` loop: running `totalAvg`, `passedStudents`
(`avg >= 20`) and `atRiskStudents` (`avg < 18`).  The loop only adds and
increments, so structural recursion from the right accumulates the same
totals as the JS forward iteration. -/
def statsFold : List ℚ → ℚ × Nat × Nat
  | [] => (0, 0, 0)
  | a :: rest =>
    let s := statsFold rest
    (s.1 + a, if 20 ≤ a then s.2.1 + 1 else s.2.1, if a < 18 then s.2.2 + 1 else s.2.2)

/-- The stats handler.  `studentMarks` accumulates `{total, count}` per
student id (insertion-ordered string-keyed object); per-student
`avg = total / count` is the sum over the student's scores divided by their
number.  `toFixed(1)` plus `parseFloat` is `jsToFixed1`. -/
def deptStats (ms : List CIEMark) : DeptStats :=
  if ms.length = 0 then ⟨0, 0, 0, 0⟩
  else
    let groups := groupPairs (ms.map fun m => (m.studentId, jsOr0 m.marks))
    let avgs := groups.map fun g => g.2.sum / (g.2.length : ℚ)
    let totalStudents := groups.length
    let s := statsFold avgs
    let departmentAverage :=
      if 0 < totalStudents then jsToFixed1 (s.1 / (totalStudents : ℚ)) else 0
    let passPct :=
      if 0 < totalStudents then jsToFixed1 ((s.2.1 : ℚ) / (totalStudents : ℚ) * 100) else 0
    ⟨departmentAverage, passPct, s.2.2, totalStudents⟩

/-- Distinct student ids, in first-appearance order. -/
def studentIdsOf (ms : List CIEMark) : List String :=
  firstDedup (ms.map fun m => m.studentId)

/-- Mean of `(marks||0)` over exactly one student's records. -/
def meanFor (ms : List CIEMark) (sid : String) : ℚ :=
  let scores := (ms.filter fun m => m.studentId = sid).map fun m => jsOr0 m.marks
  scores.sum / (scores.length : ℚ)

/-- The statistics as the claim words them: group by student, per-student
mean, `totalStudents` = distinct student count, `passPercentage` =
`100 × (students with mean ≥ 20) / totalStudents` rounded to 1 decimal,
`average` = mean of the per-student means rounded to 1 decimal,
`atRiskCount` = students with mean < 18; all-zero on empty input. -/
def deptStatsSpec (ms : List CIEMark) : DeptStats :=
  if ms = [] then ⟨0, 0, 0, 0⟩
  else
    let means := (studentIdsOf ms).map (meanFor ms)
    let n := (studentIdsOf ms).length
    ⟨jsToFixed1 (means.sum / (n : ℚ)),
     jsToFixed1 (((means.countP fun a => 20 ≤ a) : ℚ) / (n : ℚ) * 100),
     means.countP fun a => a < 18,
     n⟩

theorem valuesFor_map {β : Type} (f : CIEMark → String) (g : CIEMark → β)
    (ms : List CIEMark) (k : String) :
    valuesFor k (ms.map fun m => (f m, g m)) = (ms.filter fun m => f m = k).map g := by
  induction ms with
  | nil => rfl
  | cons m rest ih =>
    by_cases h : f m = k <;> simp [valuesFor_cons, List.filter_cons, h, ih]

theorem statsFold_eq (l : List ℚ) :
    statsFold l = (l.sum, l.countP (fun a => 20 ≤ a), l.countP (fun a => a < 18)) := by
  induction l with
  | nil => rfl
  | cons a rest ih =>
    simp only [statsFold, ih, List.sum_cons, List.countP_cons, Prod.mk.injEq]
    refine ⟨by ring, ?_, ?_⟩
    · by_cases h : 20 ≤ a <;> simp [h]
    · by_cases h : a < 18 <;> simp [h]

theorem studentGroups_eq (ms : List CIEMark) :
    groupPairs (ms.map fun m => (m.studentId, jsOr0 m.marks))
      = (studentIdsOf ms).map fun k =>
          (k, (ms.filter fun m => m.studentId = k).map fun m => jsOr0 m.marks) := by
  rw [groupPairs_eq]
  have hk : ((ms.map fun m => (m.studentId, jsOr0 m.marks)).map Prod.fst)
      = ms.map fun m => m.studentId := by simp
  rw [hk]
  unfold studentIdsOf
  apply List.map_congr_left
  intro k _
  rw [valuesFor_map]

theorem deptStats_eq_spec (ms : List CIEMark) : deptStats ms = deptStatsSpec ms := by
  by_cases hms : ms = []
  · subst hms; rfl
  · have hlen : ¬ ms.length = 0 := by simpa using hms
    rw [deptStats, deptStatsSpec, if_neg hlen, if_neg hms]
    simp only [studentGroups_eq, List.map_map, List.length_map]
    have hcomp :
        ((fun g : String × List ℚ => g.2.sum / (g.2.length : ℚ)) ∘
          fun k => (k, (ms.filter fun m => m.studentId = k).map fun m => jsOr0 m.marks))
          = meanFor ms := by
      funext k
      simp [meanFor]
    rw [hcomp, statsFold_eq]
    have hpos : 0 < (studentIdsOf ms).length := by
      rcases ms with _ | ⟨m, rest⟩
      · exact absurd rfl hms
      · simp [studentIdsOf, firstDedup]
    simp [hpos]

/-!
## Overview endpoint: alert generation

Embedding of the alert section of `router.get('/overview')`.  The JS pushes
alerts into a mutable array with a running `alertId`; we thread the array and
the counter through each loop explicitly, in iteration order.
-/

inductive AlertType | info | warning | critical
deriving DecidableEq, Repr

/-- The template-string messages, as structured data: each constructor holds
exactly what the template interpolates (`avg1` is the `toFixed(1)`-rounded
average displayed over the fixed `/50` basis). -/
inductive AlertMsg
  | lowStudentAvg (studentName : String) (avg1 : ℚ)
  | atRiskCohort (count : Nat)
  | lowSubjectAvg (subjectName : String) (avg1 : ℚ)
  | pendingReview (count : Nat)
  | allClear
deriving DecidableEq, Repr

structure Alert where
  id : Nat
  type : AlertType
  message : AlertMsg
deriving DecidableEq, Repr

/-- One value of `studentMarksMap`: the `student` object captured from the
student's first record, and the pushed `marks || 0` scores.  (The JS entry
also carries a `subjects` set that no later code reads; it is omitted.) -/
structure StudentEntry where
  student : Option Student
  scores : List ℚ
deriving DecidableEq, Repr

/-- The object `studentMarksMap` as a grouped list: one group per `studentId` in
first-appearance order, records in list order. -/
def studentGroupsOf (ms : List CIEMark) : List (String × List CIEMark) :=
  groupPairs (ms.map fun m => (m.studentId, m))

/-- Build the map entry from one group (the group is nonempty by
construction; the `student` field comes from the first record). -/
def entryOf (g : String × List CIEMark) : StudentEntry :=
  { student :=
      match g.2 with
      | [] => none
      | r :: _ => r.student
    scores := g.2.map fun r => jsOr0 r.marks }

/-- The values `Object.values(studentMarksMap)` in insertion order. -/
def entriesOf (ms : List CIEMark) : List StudentEntry :=
  (studentGroupsOf ms).map entryOf

/-- Average `entry.scores.reduce((a, b) => a + b, 0) / entry.scores.length`. -/
def avgOf (e : StudentEntry) : ℚ :=
  e.scores.sum / (e.scores.length : ℚ)

/-- Access `entry.student.name`; only read under the `entry.student` truthiness
guard, so the `none` fallback is never observable. -/
def studentNameOf (e : StudentEntry) : String :=
  match e.student with
  | some s => s.name
  | none => ""

def mkStudentWarning (aid : Nat) (e : StudentEntry) : Alert :=
  ⟨aid, .warning, .lowStudentAvg (studentNameOf e) (jsToFixed1 (avgOf e))⟩

/-- The at-risk `forEach` over the student entries: count every entry with
`avg < 18 && entry.student`, and push a warning only while
`alerts.length < 5`; `alertId` advances only on push. -/
def studentLoop : List StudentEntry → List Alert → Nat → Nat → List Alert × Nat × Nat
  | [], alerts, aid, risk => (alerts, aid, risk)
  | e :: es, alerts, aid, risk =>
    if avgOf e < 18 ∧ e.student.isSome then
      if alerts.length < 5 then
        studentLoop es (alerts ++ [mkStudentWarning aid e]) (aid + 1) (risk + 1)
      else studentLoop es alerts aid (risk + 1)
    else studentLoop es alerts aid risk

/-- The object `subjectPerf` as a grouped list: records without a joined subject are
skipped, one group per subject name in first-appearance order; a group's
`total` is the sum of its scores and its `count` their number. -/
def subjectGroups (ms : List CIEMark) : List (String × List ℚ) :=
  groupPairs (ms.filterMap fun m => m.subject.map fun s => (s.name, jsOr0 m.marks))

def mkSubjectWarning (aid : Nat) (name : String) (avg : ℚ) : Alert :=
  ⟨aid, .warning, .lowSubjectAvg name (jsToFixed1 avg)⟩

/-- The `Object.entries(subjectPerf)` loop: a warning for every subject with
`total / count < 25`, no cap. -/
def subjectLoop : List (String × List ℚ) → List Alert → Nat → List Alert × Nat
  | [], alerts, aid => (alerts, aid)
  | g :: gs, alerts, aid =>
    if g.2.sum / (g.2.length : ℚ) < 25 then
      subjectLoop gs (alerts ++ [mkSubjectWarning aid g.1 (g.2.sum / (g.2.length : ℚ))]) (aid + 1)
    else subjectLoop gs alerts aid

/-- Count `marks.filter(m => m.status === 'PENDING').length`. -/
def pendingCountOf (ms : List CIEMark) : Nat :=
  (ms.filter fun m => m.status = "PENDING").length

def criticalAlert (aid : Nat) (risk : Nat) : Alert := ⟨aid, .critical, .atRiskCohort risk⟩

def pendingAlert (aid : Nat) (n : Nat) : Alert := ⟨aid, .info, .pendingReview n⟩

def allClearAlert : Alert := ⟨1, .info, .allClear⟩

/-- State after the per-student loop: `(alerts, alertId, atRiskCount)`. -/
def studentStage (ms : List CIEMark) : List Alert × Nat × Nat :=
  studentLoop (entriesOf ms) [] 1 0

/-- The handler's `atRiskCount`. -/
def atRiskCountOf (ms : List CIEMark) : Nat := (studentStage ms).2.2

/-- Step `if (atRiskCount > 5) alerts.unshift(critical with id alertId++)`. -/
def afterCritical (ms : List CIEMark) : List Alert × Nat :=
  let s := studentStage ms
  if 5 < s.2.2 then (criticalAlert s.2.1 s.2.2 :: s.1, s.2.1 + 1) else (s.1, s.2.1)

/-- State after the subject-average loop. -/
def afterSubjects (ms : List CIEMark) : List Alert × Nat :=
  subjectLoop (subjectGroups ms) (afterCritical ms).1 (afterCritical ms).2

/-- The alert list after steps 2-4 (students, critical, subjects, pending). -/
def preAlerts (ms : List CIEMark) : List Alert :=
  if 0 < pendingCountOf ms then
    (afterSubjects ms).1 ++ [pendingAlert (afterSubjects ms).2 (pendingCountOf ms)]
  else (afterSubjects ms).1

/-- The final alert list: the all-clear alert replaces an empty list. -/
def overviewAlerts (ms : List CIEMark) : List Alert :=
  if preAlerts ms = [] then [allClearAlert] else preAlerts ms

/-- The overview response body. -/
structure OverviewResult where
  gradeDistribution : GradeDist
  alerts : List Alert
  facultyCount : Nat
deriving DecidableEq, Repr

/-- Defaulting `department || 'CS'` (missing and empty both fall back). -/
def jsOrStr (o : Option String) (d : String) : String :=
  match o with
  | none => d
  | some s => if s = "" then d else s

/-- The whole `/overview` handler: the mark load (ORM join on the resolved
department) and the faculty count are external collaborators. -/
def overviewHandler (fetchMarks : String → List CIEMark)
    (countFaculty : String → Nat) (department : Option String) : OverviewResult :=
  let dept := jsOrStr department "CS"
  let marks := fetchMarks dept
  ⟨gradeCounts marks, overviewAlerts marks, countFaculty dept⟩

/-!
## Characterizing the loops
-/

/-- The at-risk entries, in grouping (first-appearance) order: average below
18 and the joined student object present. -/
def riskEntries (ms : List CIEMark) : List StudentEntry :=
  (entriesOf ms).filter fun e => decide (avgOf e < 18) && e.student.isSome

/-- Consecutive-id student warnings starting at `aid`. -/
def mkStudentWarnings (aid : Nat) : List StudentEntry → List Alert
  | [] => []
  | e :: es => mkStudentWarning aid e :: mkStudentWarnings (aid + 1) es

/-- The subject groups whose average is below 25, in grouping order. -/
def lowSubjects (ms : List CIEMark) : List (String × List ℚ) :=
  (subjectGroups ms).filter fun g => g.2.sum / (g.2.length : ℚ) < 25

/-- Consecutive-id subject warnings starting at `aid`. -/
def mkSubjectWarnings (aid : Nat) : List (String × List ℚ) → List Alert
  | [] => []
  | g :: gs => mkSubjectWarning aid g.1 (g.2.sum / (g.2.length : ℚ)) :: mkSubjectWarnings (aid + 1) gs

theorem studentLoop_eq (es : List StudentEntry) :
    ∀ (alerts : List Alert) (risk : Nat), alerts.length ≤ 5 →
      studentLoop es alerts (alerts.length + 1) risk =
        (alerts ++ mkStudentWarnings (alerts.length + 1)
            ((es.filter fun e => decide (avgOf e < 18) && e.student.isSome).take
              (5 - alerts.length)),
         alerts.length + 1 +
           min (es.filter fun e => decide (avgOf e < 18) && e.student.isSome).length
             (5 - alerts.length),
         risk + (es.filter fun e => decide (avgOf e < 18) && e.student.isSome).length) := by
  induction es with
  | nil => intro alerts risk _; simp [studentLoop, mkStudentWarnings]
  | cons e es ih =>
    intro alerts risk hlen
    by_cases hr : avgOf e < 18 ∧ e.student.isSome
    · have hfe : (e :: es).filter (fun e => decide (avgOf e < 18) && e.student.isSome)
          = e :: es.filter (fun e => decide (avgOf e < 18) && e.student.isSome) := by
        rw [List.filter_cons]
        simp [hr.1, hr.2]
      rw [studentLoop, if_pos hr, hfe]
      by_cases hcap : alerts.length < 5
      · rw [if_pos hcap]
        have hrec := ih (alerts ++ [mkStudentWarning (alerts.length + 1) e]) (risk + 1)
          (by simp; omega)
        simp only [List.length_append, List.length_cons, List.length_nil,
          Nat.zero_add] at hrec
        rw [hrec]
        have htake : 5 - alerts.length = (5 - (alerts.length + 1)) + 1 := by omega
        rw [htake, List.take_succ_cons]
        simp only [Prod.mk.injEq, List.length_cons]
        refine ⟨by simp [mkStudentWarnings], by omega, by omega⟩
      · rw [if_neg hcap]
        have h5 : alerts.length = 5 := by omega
        rw [ih alerts (risk + 1) hlen]
        simp only [Prod.mk.injEq, h5, Nat.sub_self, List.take_zero, List.length_cons,
          mkStudentWarnings]
        refine ⟨trivial, by omega, by omega⟩
    · have hfil : (decide (avgOf e < 18) && e.student.isSome) = false := by
        rcases Decidable.not_and_iff_or_not.mp hr with h | h <;> simp [h]
      rw [studentLoop, if_neg hr, List.filter_cons, hfil]
      exact ih alerts risk hlen

theorem subjectLoop_eq (gs : List (String × List ℚ)) :
    ∀ (alerts : List Alert) (aid : Nat),
      subjectLoop gs alerts aid =
        (alerts ++ mkSubjectWarnings aid (gs.filter fun g => g.2.sum / (g.2.length : ℚ) < 25),
         aid + (gs.filter fun g => g.2.sum / (g.2.length : ℚ) < 25).length) := by
  induction gs with
  | nil => intro alerts aid; simp [subjectLoop, mkSubjectWarnings]
  | cons g gs ih =>
    intro alerts aid
    by_cases hl : g.2.sum / (g.2.length : ℚ) < 25
    · have hfe : (g :: gs).filter (fun g => g.2.sum / (g.2.length : ℚ) < 25)
          = g :: gs.filter (fun g => g.2.sum / (g.2.length : ℚ) < 25) := by
        rw [List.filter_cons]
        simp [hl]
      rw [subjectLoop, if_pos hl, ih, hfe]
      simp only [mkSubjectWarnings, Prod.mk.injEq, List.length_cons]
      refine ⟨by simp, by omega⟩
    · have hfe : (g :: gs).filter (fun g => g.2.sum / (g.2.length : ℚ) < 25)
          = gs.filter (fun g => g.2.sum / (g.2.length : ℚ) < 25) := by
        rw [List.filter_cons]
        simp [hl]
      rw [subjectLoop, if_neg hl, ih, hfe]

/-- The student stage in closed form. -/
theorem studentStage_eq (ms : List CIEMark) :
    studentStage ms =
      (mkStudentWarnings 1 ((riskEntries ms).take 5),
       1 + min (riskEntries ms).length 5,
       (riskEntries ms).length) := by
  have := studentLoop_eq (entriesOf ms) [] 0 (by simp)
  simpa [studentStage, riskEntries] using this

theorem atRiskCountOf_eq (ms : List CIEMark) :
    atRiskCountOf ms = (riskEntries ms).length := by
  rw [atRiskCountOf, studentStage_eq]

/-- Does an alert carry a per-student low-average message? -/
def Alert.isStudentWarn (a : Alert) : Bool :=
  match a.message with
  | .lowStudentAvg _ _ => true
  | _ => false

/-- Does an alert carry a subject low-average message? -/
def Alert.isSubjectWarn (a : Alert) : Bool :=
  match a.message with
  | .lowSubjectAvg _ _ => true
  | _ => false

/-- Does an alert carry the pending-review message? -/
def Alert.isPendingInfo (a : Alert) : Bool :=
  match a.message with
  | .pendingReview _ => true
  | _ => false

/-- Is the alert severity critical? -/
def Alert.isCritical (a : Alert) : Bool :=
  match a.type with
  | .critical => true
  | _ => false

theorem afterCritical_eq (ms : List CIEMark) :
    afterCritical ms =
      ((if 5 < (riskEntries ms).length then
          [criticalAlert (1 + min (riskEntries ms).length 5) (riskEntries ms).length]
        else []) ++ mkStudentWarnings 1 ((riskEntries ms).take 5),
       if 5 < (riskEntries ms).length then 1 + min (riskEntries ms).length 5 + 1
       else 1 + min (riskEntries ms).length 5) := by
  rw [afterCritical]
  simp only [studentStage_eq]
  by_cases h : 5 < (riskEntries ms).length <;> simp [h]

theorem afterSubjects_eq (ms : List CIEMark) :
    afterSubjects ms =
      ((afterCritical ms).1 ++ mkSubjectWarnings (afterCritical ms).2 (lowSubjects ms),
       (afterCritical ms).2 + (lowSubjects ms).length) := by
  rw [afterSubjects, subjectLoop_eq, lowSubjects]

theorem mkStudentWarnings_mem (aid : Nat) (es : List StudentEntry) :
    ∀ a ∈ mkStudentWarnings aid es, ∃ n e, e ∈ es ∧ a = mkStudentWarning n e := by
  induction es generalizing aid with
  | nil => intro a ha; simp [mkStudentWarnings] at ha
  | cons e es ih =>
    intro a ha
    rcases List.mem_cons.mp ha with h | h
    · exact ⟨aid, e, List.mem_cons_self _ _, h⟩
    · rcases ih (aid + 1) a h with ⟨n, e', he', rfl⟩
      exact ⟨n, e', List.mem_cons_of_mem _ he', rfl⟩

theorem mkSubjectWarnings_mem (aid : Nat) (gs : List (String × List ℚ)) :
    ∀ a ∈ mkSubjectWarnings aid gs,
      ∃ n g, g ∈ gs ∧ a = mkSubjectWarning n g.1 (g.2.sum / (g.2.length : ℚ)) := by
  induction gs generalizing aid with
  | nil => intro a ha; simp [mkSubjectWarnings] at ha
  | cons g gs ih =>
    intro a ha
    rcases List.mem_cons.mp ha with h | h
    · exact ⟨aid, g, List.mem_cons_self _ _, h⟩
    · rcases ih (aid + 1) a h with ⟨n, g', hg', rfl⟩
      exact ⟨n, g', List.mem_cons_of_mem _ hg', rfl⟩

theorem mkStudentWarnings_filter_self (aid : Nat) (es : List StudentEntry) :
    (mkStudentWarnings aid es).filter Alert.isStudentWarn = mkStudentWarnings aid es := by
  induction es generalizing aid with
  | nil => rfl
  | cons e es ih =>
    simp [mkStudentWarnings, List.filter_cons, mkStudentWarning, Alert.isStudentWarn, ih]

theorem mkStudentWarnings_filter_none (aid : Nat) (es : List StudentEntry)
    (p : Alert → Bool) (hp : ∀ n e, p (mkStudentWarning n e) = false) :
    (mkStudentWarnings aid es).filter p = [] := by
  induction es generalizing aid with
  | nil => rfl
  | cons e es ih =>
    simp [mkStudentWarnings, List.filter_cons, hp, ih]

theorem mkSubjectWarnings_filter_self (aid : Nat) (gs : List (String × List ℚ)) :
    (mkSubjectWarnings aid gs).filter Alert.isSubjectWarn = mkSubjectWarnings aid gs := by
  induction gs generalizing aid with
  | nil => rfl
  | cons g gs ih =>
    simp [mkSubjectWarnings, List.filter_cons, mkSubjectWarning, Alert.isSubjectWarn, ih]

theorem mkSubjectWarnings_filter_none (aid : Nat) (gs : List (String × List ℚ))
    (p : Alert → Bool) (hp : ∀ n s q, p (mkSubjectWarning n s q) = false) :
    (mkSubjectWarnings aid gs).filter p = [] := by
  induction gs generalizing aid with
  | nil => rfl
  | cons g gs ih =>
    simp [mkSubjectWarnings, List.filter_cons, hp, ih]

theorem mkStudentWarnings_length (aid : Nat) (es : List StudentEntry) :
    (mkStudentWarnings aid es).length = es.length := by
  induction es generalizing aid with
  | nil => rfl
  | cons e es ih => simp [mkStudentWarnings, ih]

theorem mkSubjectWarnings_length (aid : Nat) (gs : List (String × List ℚ)) :
    (mkSubjectWarnings aid gs).length = gs.length := by
  induction gs generalizing aid with
  | nil => rfl
  | cons g gs ih => simp [mkSubjectWarnings, ih]

theorem preAlerts_eq (ms : List CIEMark) :
    preAlerts ms =
      (if 5 < (riskEntries ms).length then
        [criticalAlert (1 + min (riskEntries ms).length 5) (riskEntries ms).length]
      else []) ++
      mkStudentWarnings 1 ((riskEntries ms).take 5) ++
      mkSubjectWarnings (afterCritical ms).2 (lowSubjects ms) ++
      (if 0 < pendingCountOf ms then
        [pendingAlert (afterSubjects ms).2 (pendingCountOf ms)] else []) := by
  rw [preAlerts]
  by_cases h : 0 < pendingCountOf ms <;>
    simp [h, afterSubjects_eq, afterCritical_eq, List.append_assoc]

theorem overviewAlerts_filter (ms : List CIEMark) (p : Alert → Bool)
    (hca : p allClearAlert = false) :
    (overviewAlerts ms).filter p = (preAlerts ms).filter p := by
  rw [overviewAlerts]
  by_cases hp : preAlerts ms = [] <;> simp [hp, List.filter_cons, hca]

theorem overviewAlerts_studentWarns (ms : List CIEMark) :
    (overviewAlerts ms).filter Alert.isStudentWarn
      = mkStudentWarnings 1 ((riskEntries ms).take 5) := by
  rw [overviewAlerts_filter ms _ rfl, preAlerts_eq]
  simp only [List.filter_append]
  rw [mkStudentWarnings_filter_self,
    mkSubjectWarnings_filter_none _ _ _ (fun n s q => rfl)]
  by_cases h5 : 5 < (riskEntries ms).length <;>
    by_cases hp : 0 < pendingCountOf ms <;>
    simp [h5, hp, List.filter_cons, criticalAlert, pendingAlert, Alert.isStudentWarn]

theorem overviewAlerts_subjectWarns (ms : List CIEMark) :
    (overviewAlerts ms).filter Alert.isSubjectWarn
      = mkSubjectWarnings (afterCritical ms).2 (lowSubjects ms) := by
  rw [overviewAlerts_filter ms _ rfl, preAlerts_eq]
  simp only [List.filter_append]
  rw [mkSubjectWarnings_filter_self,
    mkStudentWarnings_filter_none _ _ _ (fun n e => rfl)]
  by_cases h5 : 5 < (riskEntries ms).length <;>
    by_cases hp : 0 < pendingCountOf ms <;>
    simp [h5, hp, List.filter_cons, criticalAlert, pendingAlert, Alert.isSubjectWarn]

theorem overviewAlerts_pendingInfo (ms : List CIEMark) :
    (overviewAlerts ms).filter Alert.isPendingInfo
      = if 0 < pendingCountOf ms then
          [pendingAlert (afterSubjects ms).2 (pendingCountOf ms)] else [] := by
  rw [overviewAlerts_filter ms _ rfl, preAlerts_eq]
  simp only [List.filter_append]
  rw [mkSubjectWarnings_filter_none _ _ _ (fun n s q => rfl),
    mkStudentWarnings_filter_none _ _ _ (fun n e => rfl)]
  by_cases h5 : 5 < (riskEntries ms).length <;>
    by_cases hp : 0 < pendingCountOf ms <;>
    simp [h5, hp, List.filter_cons, criticalAlert, pendingAlert, Alert.isPendingInfo]

theorem overviewAlerts_critical (ms : List CIEMark) :
    (overviewAlerts ms).filter Alert.isCritical
      = if 5 < (riskEntries ms).length then
          [criticalAlert (1 + min (riskEntries ms).length 5) (riskEntries ms).length]
        else [] := by
  rw [overviewAlerts_filter ms _ rfl, preAlerts_eq]
  simp only [List.filter_append]
  rw [mkSubjectWarnings_filter_none _ _ _ (fun n s q => rfl),
    mkStudentWarnings_filter_none _ _ _ (fun n e => rfl)]
  by_cases h5 : 5 < (riskEntries ms).length <;>
    by_cases hp : 0 < pendingCountOf ms <;>
    simp [h5, hp, List.filter_cons, criticalAlert, pendingAlert, Alert.isCritical]

theorem overviewAlerts_crit_head (ms : List CIEMark)
    (h5 : 5 < (riskEntries ms).length) :
    (overviewAlerts ms).head?
      = some (criticalAlert (1 + min (riskEntries ms).length 5)
          (riskEntries ms).length) := by
  have hpe := preAlerts_eq ms
  rw [if_pos h5] at hpe
  have hne : preAlerts ms ≠ [] := by rw [hpe]; simp
  rw [overviewAlerts, if_neg hne, hpe]
  simp

/-!
## Concrete fixtures
-/

/-- Six students (distinct ids, student object present), each with a single
10/50 mark: every per-student average is 10 < 18.  No subject join, nothing
pending. -/
def sample6 : List CIEMark :=
  [⟨"s1", some 10, some 50, "FINALIZED", none, some ⟨"N1"⟩⟩,
   ⟨"s2", some 10, some 50, "FINALIZED", none, some ⟨"N2"⟩⟩,
   ⟨"s3", some 10, some 50, "FINALIZED", none, some ⟨"N3"⟩⟩,
   ⟨"s4", some 10, some 50, "FINALIZED", none, some ⟨"N4"⟩⟩,
   ⟨"s5", some 10, some 50, "FINALIZED", none, some ⟨"N5"⟩⟩,
   ⟨"s6", some 10, some 50, "FINALIZED", none, some ⟨"N6"⟩⟩]

/-- One subject with per-record scores 10, 10, 10 out of 50 (average 10);
no student joins, nothing pending. -/
def sample3 : List CIEMark :=
  [⟨"s1", some 10, some 50, "FINALIZED", some ⟨"Mathematics"⟩, none⟩,
   ⟨"s2", some 10, some 50, "FINALIZED", some ⟨"Mathematics"⟩, none⟩,
   ⟨"s3", some 10, some 50, "FINALIZED", some ⟨"Mathematics"⟩, none⟩]

/-- Three pending records and no other trigger condition (averages 30). -/
def samplePending : List CIEMark :=
  [⟨"s1", some 30, some 50, "PENDING", none, none⟩,
   ⟨"s2", some 30, some 50, "PENDING", none, none⟩,
   ⟨"s3", some 30, some 50, "PENDING", none, none⟩]

/-- A single record with average 0 (< 18) whose student join is missing. -/
def sampleNoStudent : List CIEMark :=
  [⟨"s1", some 0, some 50, "FINALIZED", none, none⟩]

/-- Four students with single marks 25, 19, 15, 30 (per-student averages
25, 19, 15, 30). -/
def statsSample : List CIEMark :=
  [⟨"s1", some 25, some 50, "FINALIZED", none, none⟩,
   ⟨"s2", some 19, some 50, "FINALIZED", none, none⟩,
   ⟨"s3", some 15, some 50, "FINALIZED", none, none⟩,
   ⟨"s4", some 30, some 50, "FINALIZED", none, none⟩]

theorem sample6_alerts :
    overviewAlerts sample6 =
      [⟨6, .critical, .atRiskCohort 6⟩,
       ⟨1, .warning, .lowStudentAvg "N1" 10⟩,
       ⟨2, .warning, .lowStudentAvg "N2" 10⟩,
       ⟨3, .warning, .lowStudentAvg "N3" 10⟩,
       ⟨4, .warning, .lowStudentAvg "N4" 10⟩,
       ⟨5, .warning, .lowStudentAvg "N5" 10⟩] := by
  simp [overviewAlerts, preAlerts, afterSubjects, afterCritical, studentStage,
    entriesOf, studentGroupsOf, groupPairs, entryOf, avgOf, studentLoop, subjectLoop,
    subjectGroups, pendingCountOf, jsOr0, jsToFixed1, sample6, mkSubjectWarning,
    criticalAlert, pendingAlert, allClearAlert, List.filterMap_cons,
    List.filter_cons, List.filter_nil, mkStudentWarnings, mkSubjectWarnings,
    mkStudentWarning, studentNameOf]
  norm_num
  simp

theorem sample6_atRisk : atRiskCountOf sample6 = 6 := by
  simp [atRiskCountOf, studentStage, entriesOf, studentGroupsOf, groupPairs,
    entryOf, avgOf, studentLoop, jsOr0, sample6, List.filter_cons, List.filter_nil,
    mkStudentWarning, studentNameOf]
  norm_num

theorem sample3_alerts :
    overviewAlerts sample3 = [⟨1, .warning, .lowSubjectAvg "Mathematics" 10⟩] := by
  simp [overviewAlerts, preAlerts, afterSubjects, afterCritical, studentStage,
    entriesOf, studentGroupsOf, groupPairs, entryOf, avgOf, studentLoop, subjectLoop,
    subjectGroups, pendingCountOf, jsOr0, jsToFixed1, sample3, mkSubjectWarning,
    criticalAlert, pendingAlert, allClearAlert, List.filterMap_cons,
    List.filter_cons, List.filter_nil, mkStudentWarnings, mkSubjectWarnings,
    mkStudentWarning, studentNameOf]
  norm_num

theorem samplePending_alerts :
    overviewAlerts samplePending = [⟨1, .info, .pendingReview 3⟩] := by
  simp [overviewAlerts, preAlerts, afterSubjects, afterCritical, studentStage,
    entriesOf, studentGroupsOf, groupPairs, entryOf, avgOf, studentLoop, subjectLoop,
    subjectGroups, pendingCountOf, jsOr0, jsToFixed1, samplePending, mkSubjectWarning,
    criticalAlert, pendingAlert, allClearAlert, List.filterMap_cons,
    List.filter_cons, List.filter_nil, mkStudentWarnings, mkSubjectWarnings,
    mkStudentWarning, studentNameOf]

theorem sampleNoStudent_alerts :
    overviewAlerts sampleNoStudent = [allClearAlert] := by
  simp [overviewAlerts, preAlerts, afterSubjects, afterCritical, studentStage,
    entriesOf, studentGroupsOf, groupPairs, entryOf, avgOf, studentLoop, subjectLoop,
    subjectGroups, pendingCountOf, jsOr0, jsToFixed1, sampleNoStudent, mkSubjectWarning,
    criticalAlert, pendingAlert, allClearAlert, List.filterMap_cons,
    List.filter_cons, List.filter_nil, mkStudentWarnings, mkSubjectWarnings,
    mkStudentWarning, studentNameOf]

theorem sampleNoStudent_atRisk : atRiskCountOf sampleNoStudent = 0 := by
  simp [atRiskCountOf, studentStage, entriesOf, studentGroupsOf, groupPairs,
    entryOf, avgOf, studentLoop, jsOr0, sampleNoStudent, List.filter_cons,
    List.filter_nil, mkStudentWarning, studentNameOf]

theorem sampleNoStudent_entries :
    entriesOf sampleNoStudent = [{ student := none, scores := [0] }] := by
  simp [entriesOf, studentGroupsOf, groupPairs, entryOf, jsOr0, sampleNoStudent,
    List.filter_cons, List.filter_nil]

theorem statsSample_eval :
    deptStats statsSample =
      { average := 223/10, passPercentage := 50, atRiskCount := 1, totalStudents := 4 } := by
  simp [deptStats, statsFold, groupPairs, jsOr0, jsToFixed1, statsSample,
    List.filter_cons, List.filter_nil]
  norm_num

theorem isCritical_iff (a : Alert) : Alert.isCritical a = true ↔ a.type = .critical := by
  rcases a with ⟨i, t, m⟩
  cases t <;> simp [Alert.isCritical]

theorem preAlerts_no_allclear (ms : List CIEMark) :
    ∀ a ∈ preAlerts ms, ¬ a.message = .allClear := by
  intro a ha
  rw [preAlerts_eq] at ha
  simp only [List.mem_append] at ha
  rcases ha with ((hc | hw) | hs) | hp
  · by_cases hcrit : 5 < (riskEntries ms).length
    · rw [if_pos hcrit] at hc
      simp only [List.mem_singleton] at hc
      subst hc
      simp [criticalAlert]
    · rw [if_neg hcrit] at hc
      simp at hc
  · rcases mkStudentWarnings_mem _ _ a hw with ⟨n, e, _, rfl⟩
    simp [mkStudentWarning]
  · rcases mkSubjectWarnings_mem _ _ a hs with ⟨n, g, _, rfl⟩
    simp [mkSubjectWarning]
  · by_cases hpend : 0 < pendingCountOf ms
    · rw [if_pos hpend] at hp
      simp only [List.mem_singleton] at hp
      subst hp
      simp [pendingAlert]
    · rw [if_neg hpend] at hp
      simp at hp

theorem groupPairs_nonempty {α : Type} (l : List (String × α)) :
    ∀ g ∈ groupPairs l, g.2 ≠ [] := by
  induction l using groupPairs.induct with
  | case1 => intro g hg; simp [groupPairs] at hg
  | case2 k v rest ih =>
    intro g hg
    rw [groupPairs] at hg
    rcases List.mem_cons.mp hg with h | h
    · subst h; simp
    · exact ih g h

theorem subjectGroups_skip (ms : List CIEMark) :
    subjectGroups (ms.filter fun m => m.subject.isSome) = subjectGroups ms := by
  rw [subjectGroups, subjectGroups]
  congr 1
  induction ms with
  | nil => rfl
  | cons m rest ih =>
    rcases hs : m.subject with _ | s <;>
      simp [List.filter_cons, List.filterMap_cons, hs, ih]

theorem riskEntries_all_student (ms : List CIEMark) :
    (riskEntries ms).filter (fun e => e.student.isSome) = riskEntries ms := by
  rw [riskEntries, List.filter_filter]
  congr 1
  funext e
  cases hs : e.student.isSome <;> simp [hs]

/-!
## POST /faculty

Embedding of `router.post('/faculty')`.  `bcrypt.hash` is the external
credential-hashing collaborator; the store's id assignment on `User.create`
is likewise external, so both are parameters.
-/

/-- Request body fields destructured by the handler. -/
structure FacultyBody where
  username : String
  fullName : String
  email : String
  password : Option String
  department : String
  designation : String
deriving DecidableEq, Repr

/-- The row passed to `User.create` (the store assigns the row id). -/
structure UserRow where
  username : String
  fullName : String
  email : String
  password : String
  role : String
  department : String
  associatedId : String
deriving DecidableEq, Repr

/-- The success response: `res.status(201).json({ message, id })`. -/
structure CreatedResponse where
  status : Nat
  message : String
  id : Nat
deriving DecidableEq, Repr

/-- Defaulting `password || 'password123'` (omitted and empty both fall back). -/
def effectivePassword (p : Option String) : String := jsOrStr p "password123"

/-- The handler: hash the effective password, persist the row with role
`FACULTY`, answer 201 with the new row's id. -/
def addFaculty (hash : String → String) (assignId : UserRow → Nat)
    (b : FacultyBody) : UserRow × CreatedResponse :=
  let hashed := hash (effectivePassword b.password)
  let row : UserRow :=
    { username := b.username, fullName := b.fullName, email := b.email,
      password := hashed, role := "FACULTY", department := b.department,
      associatedId := b.username }
  (row, { status := 201, message := "Faculty created successfully", id := assignId row })

/-!
## The claims
-/

/-- C1: the grade distribution assigns each record to exactly one of the five
bands computed from `percent = (marksObtained||0)/(maxMarks||50)*100` — A iff
`percent ≥ 80`, B iff `60 ≤ percent < 80`, C iff `40 ≤ percent < 60`, D iff
`20 ≤ percent < 40`, F otherwise (negative included) — the five counts sum to
the number of records, and empty input leaves all five counters 0. -/
theorem claim_C1_grade_distribution :
    (∀ m : CIEMark,
      (bandOf m = .A ↔ 80 ≤ percentOf m) ∧
      (bandOf m = .B ↔ 60 ≤ percentOf m ∧ percentOf m < 80) ∧
      (bandOf m = .C ↔ 40 ≤ percentOf m ∧ percentOf m < 60) ∧
      (bandOf m = .D ↔ 20 ≤ percentOf m ∧ percentOf m < 40) ∧
      (bandOf m = .F ↔ percentOf m < 20)) ∧
    (∀ ms : List CIEMark,
      gradeCounts ms = bandCounts ms ∧ (gradeCounts ms).total = ms.length) ∧
    gradeCounts [] = ⟨0, 0, 0, 0, 0⟩ :=
  ⟨fun m => ⟨bandOf_A_iff m, bandOf_B_iff m, bandOf_C_iff m, bandOf_D_iff m,
      bandOf_F_iff m⟩,
   fun ms => ⟨gradeCounts_eq_bandCounts ms, gradeCounts_total ms⟩,
   rfl⟩

/-- C2: the department statistics endpoint returns the all-zero record on
empty input, and otherwise exactly the spec-side statistics: group by
student, per-student mean of `(marks||0)`, `totalStudents` = distinct
students, `passPercentage` = `100 × (students with mean ≥ 20)/totalStudents`
rounded to 1 decimal, `average` = mean of per-student means rounded to 1
decimal, `atRiskCount` = students with mean < 18. -/
theorem claim_C2_department_stats :
    deptStats [] = ⟨0, 0, 0, 0⟩ ∧
    ∀ ms : List CIEMark, deptStats ms = deptStatsSpec ms :=
  ⟨rfl, deptStats_eq_spec⟩

/-- C3: a critical alert exists iff the at-risk count exceeds 5; when it
does, the critical alert is first, states the at-risk total, and carries the
id next available after the per-student warnings (one more than the number
of emitted warnings), which it keeps at the front. -/
theorem claim_C3_critical_alert (ms : List CIEMark) :
    ((∃ a ∈ overviewAlerts ms, a.type = .critical) ↔ 5 < atRiskCountOf ms) ∧
    (5 < atRiskCountOf ms →
      (overviewAlerts ms).head?
        = some (criticalAlert (1 + min (atRiskCountOf ms) 5) (atRiskCountOf ms)) ∧
      (overviewAlerts ms).filter Alert.isCritical
        = [criticalAlert
            (((overviewAlerts ms).filter Alert.isStudentWarn).length + 1)
            (atRiskCountOf ms)]) := by
  have hR := atRiskCountOf_eq ms
  constructor
  · constructor
    · rintro ⟨a, ha, hat⟩
      by_contra h5
      have hmem : a ∈ (overviewAlerts ms).filter Alert.isCritical :=
        List.mem_filter.mpr ⟨ha, (isCritical_iff a).mpr hat⟩
      rw [overviewAlerts_critical, if_neg (by omega)] at hmem
      simp at hmem
    · intro h5
      have hmem : criticalAlert (1 + min (riskEntries ms).length 5)
          (riskEntries ms).length ∈ (overviewAlerts ms).filter Alert.isCritical := by
        rw [overviewAlerts_critical, if_pos (by omega)]
        simp
      exact ⟨_, (List.mem_filter.mp hmem).1,
        (isCritical_iff _).mp (List.mem_filter.mp hmem).2⟩
  · intro h5
    have h5' : 5 < (riskEntries ms).length := by omega
    have hw : ((overviewAlerts ms).filter Alert.isStudentWarn).length
        = min 5 (riskEntries ms).length := by
      rw [overviewAlerts_studentWarns, mkStudentWarnings_length, List.length_take]
    constructor
    · rw [overviewAlerts_crit_head ms h5', hR]
    · rw [overviewAlerts_critical, if_pos h5', hw, hR]
      have : 1 + min (riskEntries ms).length 5 = min 5 (riskEntries ms).length + 1 := by
        omega
      rw [this]

/-- C3 witness at the six-at-risk fixture. -/
theorem claim_C3_witness :
    5 < atRiskCountOf sample6 ∧
    (overviewAlerts sample6).head?
      = some (criticalAlert (1 + min (atRiskCountOf sample6) 5)
          (atRiskCountOf sample6)) :=
  ⟨sample6_atRisk.symm ▸ (by decide : (5 : Nat) < 6),
   ((claim_C3_critical_alert sample6).2
     (sample6_atRisk.symm ▸ (by decide : (5 : Nat) < 6))).1⟩

/-- C4: the per-student warnings of the overview are exactly one warning per
at-risk student, in grouping (first-appearance) order, capped strictly at 5,
each carrying the student's name and rounded average; on the six-at-risk
fixture the result is exactly six alerts, the critical first with id 6, then
the five capped warnings with ids 1-5. -/
theorem claim_C4_student_warnings :
    (∀ ms : List CIEMark,
      (overviewAlerts ms).filter Alert.isStudentWarn
        = mkStudentWarnings 1 ((riskEntries ms).take 5) ∧
      ((overviewAlerts ms).filter Alert.isStudentWarn).length
        = min (atRiskCountOf ms) 5) ∧
    overviewAlerts sample6 =
      [⟨6, .critical, .atRiskCohort 6⟩,
       ⟨1, .warning, .lowStudentAvg "N1" 10⟩,
       ⟨2, .warning, .lowStudentAvg "N2" 10⟩,
       ⟨3, .warning, .lowStudentAvg "N3" 10⟩,
       ⟨4, .warning, .lowStudentAvg "N4" 10⟩,
       ⟨5, .warning, .lowStudentAvg "N5" 10⟩] := by
  refine ⟨fun ms => ⟨overviewAlerts_studentWarns ms, ?_⟩, sample6_alerts⟩
  rw [overviewAlerts_studentWarns, mkStudentWarnings_length, List.length_take,
    atRiskCountOf_eq]
  omega

/-- C5: one subject warning per subject whose mean of `(marks||0)` is below
25, in grouping order, uncapped, carrying the subject name and rounded
average; records without a subject join never enter subject grouping, every
subject group holds at least one record (no division by zero), and the
`{10,10,10}` fixture produces exactly the "Mathematics"/10.0 warning. -/
theorem claim_C5_subject_warnings :
    (∀ ms : List CIEMark,
      (overviewAlerts ms).filter Alert.isSubjectWarn
        = mkSubjectWarnings (afterCritical ms).2 (lowSubjects ms) ∧
      subjectGroups (ms.filter fun m => m.subject.isSome) = subjectGroups ms ∧
      ((subjectGroups ms).all fun g => 0 < g.2.length)) ∧
    overviewAlerts sample3 = [⟨1, .warning, .lowSubjectAvg "Mathematics" 10⟩] := by
  refine ⟨fun ms => ⟨overviewAlerts_subjectWarns ms, subjectGroups_skip ms, ?_⟩,
    sample3_alerts⟩
  rw [List.all_eq_true]
  intro g hg
  have hne := groupPairs_nonempty _ g hg
  simp [List.length_pos, hne]

/-- C6: the pending-review info alert (stating the pending count) is present
iff some record has status PENDING; the all-clear alert is present iff steps
2-4 emitted nothing, in which case the whole list is exactly the id-1
all-clear alert; the pending-only fixture yields just the pending alert. -/
theorem claim_C6_pending_allclear :
    (∀ ms : List CIEMark,
      ((overviewAlerts ms).filter Alert.isPendingInfo
        = if 0 < pendingCountOf ms then
            [pendingAlert (afterSubjects ms).2 (pendingCountOf ms)] else []) ∧
      ((∃ a ∈ overviewAlerts ms, a.message = .allClear) ↔ preAlerts ms = []) ∧
      (overviewAlerts ms = [allClearAlert] ↔ preAlerts ms = [])) ∧
    overviewAlerts samplePending = [⟨1, .info, .pendingReview 3⟩] := by
  refine ⟨fun ms => ⟨overviewAlerts_pendingInfo ms, ?_, ?_⟩, samplePending_alerts⟩
  · constructor
    · rintro ⟨a, ha, hm⟩
      by_contra hne
      rw [overviewAlerts, if_neg hne] at ha
      exact preAlerts_no_allclear ms a ha hm
    · intro hp
      rw [overviewAlerts, if_pos hp]
      exact ⟨allClearAlert, List.mem_singleton_self _, rfl⟩
  · constructor
    · intro heq
      by_contra hne
      rw [overviewAlerts, if_neg hne] at heq
      have : allClearAlert ∈ preAlerts ms := by rw [heq]; simp
      exact preAlerts_no_allclear ms _ this rfl
    · intro hp
      rw [overviewAlerts, if_pos hp]

/-- C6 witness at the pending-only fixture. -/
theorem claim_C6_witness :
    (∃ a ∈ overviewAlerts samplePending, a.message = .allClear) ↔
      preAlerts samplePending = [] :=
  ((claim_C6_pending_allclear.1 samplePending).2).1

/-- C9: records whose student join is missing are excluded from both the
at-risk count and the per-student warnings: the at-risk count requires the
student object, every at-risk entry has it, and the single below-threshold
record without a student yields no warning, a zero at-risk count, and only
the all-clear alert. -/
theorem claim_C9_missing_student_excluded :
    (∀ ms : List CIEMark,
      atRiskCountOf ms
        = ((entriesOf ms).filter fun e =>
            decide (avgOf e < 18) && e.student.isSome).length ∧
      (riskEntries ms).filter (fun e => e.student.isSome) = riskEntries ms) ∧
    avgOf { student := none, scores := [0] } < 18 ∧
    entriesOf sampleNoStudent = [{ student := none, scores := [0] }] ∧
    atRiskCountOf sampleNoStudent = 0 ∧
    overviewAlerts sampleNoStudent = [allClearAlert] := by
  refine ⟨fun ms => ⟨?_, riskEntries_all_student ms⟩, ?_,
    sampleNoStudent_entries, sampleNoStudent_atRisk, sampleNoStudent_alerts⟩
  · rw [atRiskCountOf_eq, riskEntries]
  · norm_num [avgOf]

/-- C10: calling the overview handler without a department query parameter
aggregates for the literal default department `'CS'`. -/
theorem claim_C10_default_department :
    (∀ (fetchMarks : String → List CIEMark) (countFaculty : String → Nat),
      overviewHandler fetchMarks countFaculty none =
        ⟨gradeCounts (fetchMarks "CS"), overviewAlerts (fetchMarks "CS"),
         countFaculty "CS"⟩ ∧
      overviewHandler fetchMarks countFaculty none
        = overviewHandler fetchMarks countFaculty (some "CS")) ∧
    jsOrStr none "CS" = "CS" :=
  ⟨fun _ _ => ⟨rfl, rfl⟩, rfl⟩

/-- C7 counterexample: on the four students with averages 25, 19, 15, 30 the
endpoint returns `passPercentage = 50.0`, not the claimed `75.0` — with the
pass threshold `mean ≥ 20`, only the students at 25 and 30 pass (19 < 20),
so 2 of 4 pass. -/
theorem claim_C7_counterexample :
    (deptStats statsSample).passPercentage = 50 ∧
    ¬ (deptStats statsSample).passPercentage = 75 := by
  rw [statsSample_eval]
  norm_num

/-- C7 (amended): for the four students with per-student averages
[25, 19, 15, 30] the endpoint returns `totalStudents = 4`, `atRiskCount = 1`
(the 15), `passPercentage = 50.0` (2 of 4 have mean ≥ 20, since 19 < 20),
and `average = 22.3` — the mean 22.25 rounds to 22.3 under the
round-half-up rule at 1 decimal place. -/
theorem claim_C7_stats_sample :
    deptStats statsSample =
      { average := 223/10, passPercentage := 50, atRiskCount := 1, totalStudents := 4 } ∧
    ((25 : ℚ) + 19 + 15 + 30) / 4 = 89/4 ∧
    jsToFixed1 (89/4) = 223/10 := by
  refine ⟨statsSample_eval, by norm_num, ?_⟩
  norm_num [jsToFixed1]

/-- C8 counterexample: when the request supplies the empty-string password,
the handler does not hash the supplied password — `'' || 'password123'`
falls back, so the stored hash is of the default, not of `""`. -/
theorem claim_C8_counterexample :
    ((addFaculty (fun s => String.append "hash:" s) (fun _ => 7)
        ⟨"newuser", "New User", "new@x.com", some "", "CS", "Faculty"⟩).1.password
      = "hash:password123") ∧
    ¬ ((addFaculty (fun s => String.append "hash:" s) (fun _ => 7)
        ⟨"newuser", "New User", "new@x.com", some "", "CS", "Faculty"⟩).1.password
      = String.append "hash:" "") := by
  constructor
  · rfl
  · decide

/-- C8 (amended): POST /faculty persists the row with role FACULTY and with
the hashing collaborator applied to the effective password — the supplied
password when it is non-empty, the default `"password123"` when the field is
omitted or empty — never the plaintext itself, and answers 201 with the
success message and the new row's id. -/
theorem claim_C8_faculty_create (hash : String → String)
    (assignId : UserRow → Nat) (b : FacultyBody) :
    (addFaculty hash assignId b).1.role = "FACULTY" ∧
    (addFaculty hash assignId b).1.password = hash (effectivePassword b.password) ∧
    effectivePassword none = "password123" ∧
    (∀ s : String, effectivePassword (some s) = if s = "" then "password123" else s) ∧
    (addFaculty hash assignId b).2.status = 201 ∧
    (addFaculty hash assignId b).2.message = "Faculty created successfully" ∧
    (addFaculty hash assignId b).2.id = assignId (addFaculty hash assignId b).1 :=
  ⟨rfl, rfl, rfl, fun _ => rfl, rfl, rfl, rfl⟩
